import Mathlib

/-!
Verification of the documentation-search pipeline (`search.py`, `main.py`):
archive fetch (`download_zip`), markdown extraction (`extract_md_files`),
index construction (`build_index`), query execution (`search`), the
process-wide get-or-build cache (`get_cached_index`), and the result
formatting of the `search_docs` tool.

The embedding is shallow: strings are Lean `String`s (Python strings are
sequences of code points, as is `String.data`), the filesystem is an
association list from path to blob, the network is a function from URL to
a response model, and the external capabilities (HTTP transport, UTF-8
decoding of raw bytes, the minsearch `Index.fit` / `Index.search` engine)
are parameters of the definitions that delegate to them.
-/

namespace DocsSearch

/-! ## String helpers mirroring the Python primitives used by the source -/

/-- Splits a list at the first occurrence of `sep`, returning the parts
before and after it; `none` when `sep` does not occur.  This mirrors
Python's `s.split(sep, 1)`: a `some (a, b)` result corresponds to the
two-element list `[a, b]`, a `none` result to the one-element list `[s]`. -/
def splitOnce (sep : Char) : List Char → Option (List Char × List Char)
  | [] => none
  | c :: cs =>
    if c = sep then some ([], cs)
    else
      match splitOnce sep cs with
      | some (l, r) => some (c :: l, r)
      | none => none

/-- `endsWithStr s p` mirrors Python's `s.endswith(p)`. -/
def endsWithStr (s p : String) : Prop := p.data <:+ s.data

instance (s p : String) : Decidable (endsWithStr s p) :=
  inferInstanceAs (Decidable (p.data <:+ s.data))

/-- The characters Python's `str.strip()` removes by default
(the ASCII whitespace characters). -/
def isPySpace (c : Char) : Bool :=
  c = ' ' || c = '\t' || c = '\n' || c = '\r' || c = '\x0b' || c = '\x0c'

/-- Mirrors Python's `s.strip()`: drops leading and trailing whitespace. -/
def pyStrip (s : String) : String :=
  String.mk (((s.data.dropWhile isPySpace).reverse.dropWhile isPySpace).reverse)

/-- Mirrors Python's slice `s[:n]` (first `n` code points). -/
def pyTake (s : String) (n : Nat) : String := String.mk (s.data.take n)

/-- Mirrors `os.path.basename`: the part of `p` after the last `/`. -/
def basename (p : String) : String :=
  String.mk ((p.data.reverse.takeWhile (fun c => ¬ (c = '/'))).reverse)

/-- Mirrors `os.path.join dir f` for the relative filenames produced by
`download_zip` (the joined path; a trailing separator on `dir` is not
duplicated). -/
def joinPath (dir f : String) : String :=
  if dir = "" then f
  else if endsWithStr dir "/" then dir ++ f
  else dir ++ "/" ++ f

/-- Models `urllib.parse.urlparse` for plain `scheme://host/path` URLs
without query, fragment or userinfo components (the shapes `download_zip`
inspects): `scheme` is the part before the first `:`, `netloc` the part
between `//` and the next `/`, `path` the rest. -/
structure ParsedUrl where
  scheme : String
  netloc : String
  path : String
deriving DecidableEq

def urlparse (url : String) : ParsedUrl :=
  match splitOnce ':' url.data with
  | none => ⟨"", "", url⟩
  | some (sch, rest) =>
    if rest.take 2 = ['/', '/'] then
      match splitOnce '/' (rest.drop 2) with
      | some (host, p) => ⟨String.mk sch, String.mk host, String.mk ('/' :: p)⟩
      | none => ⟨String.mk sch, String.mk (rest.drop 2), ""⟩
    else ⟨String.mk sch, "", String.mk rest⟩

/-! ## Data model -/

/-- A document: `filename` is the identifier after root-prefix stripping,
`content` the decoded text (`search.py`, `extract_md_files`). -/
structure Doc where
  filename : String
  content : String
deriving DecidableEq

/-- One entry of a zip archive: its internal path, whether it is a
directory entry, and its raw data of abstract byte type `γ`. -/
structure ZipEntry (γ : Type) where
  filename : String
  is_dir : Bool
  data : γ
deriving DecidableEq

/-- The content stored at a filesystem path: either a readable zip archive
(its entries) or bytes that `zipfile.ZipFile` rejects. -/
inductive Blob (γ : Type) where
  | zip (entries : List (ZipEntry γ))
  | corrupt
deriving DecidableEq

/-- The error taxonomy of `search.py`: `ValueError`, `DownloadError`,
`ExtractionError`, `IndexingError` and plain `SearchError`. -/
inductive Err where
  | valueError (msg : String)
  | downloadError (msg : String)
  | extractionError (msg : String)
  | indexingError (msg : String)
  | searchError (msg : String)
deriving DecidableEq

/-- Association-list lookup (first binding wins), modelling both the
`os.path.exists` check over the filesystem and the `in`/`[]` operations on
the Python cache dict. -/
def alookup {β : Type} : List (String × β) → String → Option β
  | [], _ => none
  | (k, v) :: rest, key => if k = key then some v else alookup rest key

/-! ## Document extractor (`extract_md_files`, `search.py` lines 122-163) -/

/-- Lines 137-142 of `search.py`: `parts = filename.split('/', 1)`; the
cleaned name is `parts[1]` when a `/` occurs, else the whole filename. -/
def cleanFilename (filename : String) : String :=
  match splitOnce '/' filename.data with
  | some (_, rest) => String.mk rest
  | none => filename

/-- The per-entry body of the extraction loop (`search.py` lines 126-156):
skip directories, keep only `.md`/`.mdx` names, strip the first path
segment, skip empty cleaned names, decode as UTF-8 and skip entries whose
bytes do not decode.  `decode` is the external `bytes.decode("utf-8")`
capability, `none` meaning `UnicodeDecodeError`. -/
def processEntry {γ : Type} (decode : γ → Option String) (e : ZipEntry γ) : Option Doc :=
  if e.is_dir then none
  else if ¬ (endsWithStr e.filename ".md" ∨ endsWithStr e.filename ".mdx") then none
  else if cleanFilename e.filename = "" then none
  else
    match decode e.data with
    | some content => some ⟨cleanFilename e.filename, content⟩
    | none => none

/-- `extract_md_files` on an already-opened archive: the documents
collected over the entries in archive-iteration order. -/
def extract_md_files {γ : Type} (decode : γ → Option String)
    (entries : List (ZipEntry γ)) : List Doc :=
  entries.filterMap (processEntry decode)

/-- `extract_md_files` as called on a path (`search.py` lines 116-163):
validates the path, requires the file to exist, rejects corrupt archives,
and otherwise extracts from the entries. -/
def extract_md_files_at {γ : Type} (decode : γ → Option String)
    (files : List (String × Blob γ)) (zip_path : String) : Except Err (List Doc) :=
  if zip_path = "" then .error (.valueError "Zip path must be a non-empty string")
  else
    match alookup files zip_path with
    | none => .error (.extractionError ("Zip file not found: " ++ zip_path))
    | some .corrupt => .error (.extractionError ("Invalid or corrupted zip file: " ++ zip_path))
    | some (.zip entries) => .ok (extract_md_files decode entries)

/-! ## Archive fetcher (`download_zip`, `search.py` lines 41-97) -/

/-- What one HTTP GET of a URL does, as seen by `download_zip`'s streamed
write loop: the whole body arrives (`success`), the request fails before
any body chunk is written (timeout, connection failure, or non-success
status from `raise_for_status` — `failEarly`), or the stream or the local
write fails after some chunks were already written to the destination
file (`failDuring`, carrying the bytes written so far). -/
inductive NetResponse (γ : Type) where
  | success (body : Blob γ)
  | failEarly (msg : String)
  | failDuring (written : Blob γ) (msg : String)
deriving DecidableEq

/-- Process state threaded through the pipeline: the filesystem, the
module-level `_index_cache` dict, and instrumentation counters for the
network requests issued and the `download_zip` / `extract_md_files` /
`build_index` invocations made by `get_cached_index`. -/
structure St (γ Ix : Type) where
  files : List (String × Blob γ)
  cache : List (String × Ix)
  netCalls : Nat
  fetchCalls : Nat
  extractCalls : Nat
  buildCalls : Nat
deriving DecidableEq

/-- Lines 64-69 of `search.py`: the local path `download_zip` derives for a
URL — the last segment of the URL path when it ends in `.zip`, else the
fixed name `download.zip`, joined under `dest_dir`. -/
def derived_local_path (url dest_dir : String) : String :=
  let parsed := urlparse url
  let filename0 := basename parsed.path
  let filename := if endsWithStr filename0 ".zip" then filename0 else "download.zip"
  joinPath dest_dir filename

/-- The URL validation of `search.py` lines 57-62: non-empty, scheme
`http` or `https`, non-empty host. -/
def validUrl (url : String) : Prop :=
  url ≠ "" ∧
    ((urlparse url).scheme = "http" ∨ (urlparse url).scheme = "https") ∧
    (urlparse url).netloc ≠ ""

instance (url : String) : Decidable (validUrl url) := by
  unfold validUrl; infer_instance

/-- `download_zip` (`search.py` lines 41-97): validate the URL, derive the
local path, return it at once when a file already occupies it, otherwise
issue the GET modelled by `net` and write the streamed body. -/
def download_zip {γ Ix : Type} (net : String → NetResponse γ) (url dest_dir : String)
    (st : St γ Ix) : Except Err String × St γ Ix :=
  if url = "" then (.error (.valueError "URL must be a non-empty string"), st)
  else if ¬ validUrl url then (.error (.valueError ("Invalid URL: " ++ url)), st)
  else
    let dest_path := derived_local_path url dest_dir
    match alookup st.files dest_path with
    | some _ => (.ok dest_path, st)
    | none =>
      match net url with
      | .success body =>
        (.ok dest_path,
         { st with files := (dest_path, body) :: st.files, netCalls := st.netCalls + 1 })
      | .failEarly msg =>
        (.error (.downloadError msg), { st with netCalls := st.netCalls + 1 })
      | .failDuring written msg =>
        (.error (.downloadError msg),
         { st with files := (dest_path, written) :: st.files, netCalls := st.netCalls + 1 })

/-! ## Index builder (`build_index`, `search.py` lines 166-197) -/

/-- The shapes the `documents` argument of `build_index` distinguishes:
the missing-value sentinel `None`, a value that is not a list, or a list
of documents. -/
inductive DocsArg where
  | pyNone
  | nonList
  | pyList (docs : List Doc)
deriving DecidableEq

/-- `build_index` (`search.py` lines 166-197): `None` and non-list inputs
are `ValueError`s, the empty list is an `IndexingError`, and otherwise the
external minsearch capability `fit` builds the index, its failures wrapped
as `IndexingError`. -/
def build_index {Ix : Type} (fit : List Doc → Except String Ix) :
    DocsArg → Except Err Ix
  | .pyNone => .error (.valueError "Documents cannot be None")
  | .nonList => .error (.valueError "Documents must be a list")
  | .pyList docs =>
    if docs.length = 0 then .error (.indexingError "Cannot build index from empty document list")
    else
      match fit docs with
      | .ok ix => .ok ix
      | .error e => .error (.indexingError ("Failed to build index: " ++ e))

/-! ## Query executor (`search`, `search.py` lines 200-232) -/

/-- The shapes the `query` argument of `search` distinguishes: a string,
or any non-string value. -/
inductive QueryArg where
  | str (s : String)
  | nonStr
deriving DecidableEq

/-- The shapes the `num_results` argument of `search` distinguishes: an
integer (Python `int`), or any non-integer value. -/
inductive LimitArg where
  | int (n : Int)
  | nonInt
deriving DecidableEq

/-- `search` (`search.py` lines 200-232): rejects a `None` index, a
non-string query, a query that is empty after stripping, and a
non-positive or non-integer `num_results`, then delegates to the external
`index.search` capability `runQuery`, wrapping its failures as
`SearchError`. -/
def search {Ix : Type} (runQuery : Ix → String → Int → Except String (List Doc))
    (index : Option Ix) (query : QueryArg) (num_results : LimitArg) :
    Except Err (List Doc) :=
  match index with
  | none => .error (.valueError "Index cannot be None")
  | some ix =>
    match query with
    | .nonStr => .error (.valueError "Query must be a string")
    | .str q =>
      if pyStrip q = "" then .error (.valueError "Query cannot be empty or whitespace only")
      else
        match num_results with
        | .nonInt => .error (.valueError "num_results must be a positive integer")
        | .int n =>
          if n ≤ 0 then .error (.valueError "num_results must be a positive integer")
          else
            match runQuery ix q n with
            | .ok results => .ok results
            | .error e => .error (.searchError ("Search failed: " ++ e))

/-! ## Index cache (`get_cached_index`, `search.py` lines 239-258) -/

/-- `get_cached_index` (`search.py` lines 254-258): on a cache hit return
the stored index untouched; on a miss run `download_zip`, then
`extract_md_files` on the downloaded path, then `build_index`, store the
result under the URL and return it.  Each stage invocation bumps its
counter; an exception at any stage propagates and ends the call there. -/
def get_cached_index {γ Ix : Type} (net : String → NetResponse γ)
    (decode : γ → Option String) (fit : List Doc → Except String Ix)
    (zip_url dest_dir : String) (st : St γ Ix) : Except Err Ix × St γ Ix :=
  match alookup st.cache zip_url with
  | some ix => (.ok ix, st)
  | none =>
    let st1 := { st with fetchCalls := st.fetchCalls + 1 }
    match download_zip net zip_url dest_dir st1 with
    | (.error e, st2) => (.error e, st2)
    | (.ok zip_path, st2) =>
      let st3 := { st2 with extractCalls := st2.extractCalls + 1 }
      match extract_md_files_at decode st3.files zip_path with
      | .error e => (.error e, st3)
      | .ok docs =>
        let st4 := { st3 with buildCalls := st3.buildCalls + 1 }
        match build_index fit (.pyList docs) with
        | .error e => (.error e, st4)
        | .ok ix => (.ok ix, { st4 with cache := (zip_url, ix) :: st4.cache })

/-! ## Result formatting (`search_docs`, `main.py` lines 98-104) -/

/-- One element of the list `search_docs` returns: the document identifier
and the truncated content preview. -/
structure PreviewEntry where
  filename : String
  content_preview : String
deriving DecidableEq

/-- Line 101 of `main.py`: the preview is the full content when it has at
most 500 characters, else its first 500 characters followed by `...`. -/
def content_preview (content : String) : String :=
  if content.length > 500 then pyTake content 500 ++ "..." else content

/-- The result-shaping comprehension of `search_docs`
(`main.py` lines 98-104) applied to the documents the search returned. -/
def search_docs_results (results : List Doc) : List PreviewEntry :=
  results.map (fun doc => ⟨doc.filename, content_preview doc.content⟩)

/-! ## Helper lemmas -/

instance {ε α : Type} [DecidableEq ε] [DecidableEq α] : DecidableEq (Except ε α) := fun x y =>
  match x, y with
  | .ok a, .ok b => if h : a = b then isTrue (by rw [h]) else isFalse (by simp [h])
  | .error a, .error b => if h : a = b then isTrue (by rw [h]) else isFalse (by simp [h])
  | .ok _, .error _ => isFalse (by simp)
  | .error _, .ok _ => isFalse (by simp)

theorem splitOnce_eq_some {c : Char} : ∀ {l a b : List Char},
    splitOnce c l = some (a, b) → l = a ++ c :: b ∧ c ∉ a := by
  intro l
  induction l with
  | nil => intro a b h; simp [splitOnce] at h
  | cons x xs ih =>
    intro a b h
    by_cases hx : x = c
    · subst hx
      simp [splitOnce] at h
      obtain ⟨ha, hb⟩ := h
      subst ha; subst hb
      simp
    · simp only [splitOnce, if_neg hx] at h
      cases hr : splitOnce c xs with
      | none => rw [hr] at h; simp at h
      | some p =>
        obtain ⟨l', r'⟩ := p
        rw [hr] at h
        simp at h
        obtain ⟨ha, hb⟩ := h
        obtain ⟨he, hn⟩ := ih hr
        subst hb
        rw [← ha]
        constructor
        · simp [he]
        · intro hmem
          rcases List.mem_cons.1 hmem with h1 | h2
          · exact hx h1.symm
          · exact hn h2

theorem splitOnce_eq_none {c : Char} : ∀ {l : List Char},
    splitOnce c l = none → c ∉ l := by
  intro l
  induction l with
  | nil => intro _; simp
  | cons x xs ih =>
    intro h
    by_cases hx : x = c
    · subst hx; simp [splitOnce] at h
    · simp only [splitOnce, if_neg hx] at h
      cases hr : splitOnce c xs with
      | none =>
        intro hmem
        rcases List.mem_cons.1 hmem with h1 | h2
        · exact hx h1.symm
        · exact ih hr h2
      | some p => rw [hr] at h; simp at h

theorem suffix_after_sep {c : Char} {sfx a b : List Char}
    (hs : sfx <:+ a ++ c :: b) (hc : c ∉ sfx) : sfx <:+ b := by
  by_cases hlen : sfx.length ≤ b.length
  · have hb : b <:+ a ++ c :: b :=
      (List.suffix_cons c b).trans (List.suffix_append a (c :: b))
    exact List.suffix_of_suffix_length_le hs hb hlen
  · exfalso
    have hb : (c :: b) <:+ a ++ c :: b := List.suffix_append a (c :: b)
    have : (c :: b) <:+ sfx := by
      apply List.suffix_of_suffix_length_le hb hs
      simpa using Nat.lt_of_not_le hlen
    exact hc (this.mem (by simp))

theorem cleanFilename_endsWith {f sfx : String}
    (h : endsWithStr f sfx) (hc : '/' ∉ sfx.data) :
    endsWithStr (cleanFilename f) sfx := by
  unfold cleanFilename
  cases hs : splitOnce '/' f.data with
  | none => exact h
  | some p =>
    obtain ⟨a, b⟩ := p
    obtain ⟨he, _⟩ := splitOnce_eq_some hs
    unfold endsWithStr at h ⊢
    rw [he] at h
    exact suffix_after_sep h hc

theorem processEntry_eq_some {γ : Type} {decode : γ → Option String}
    {e : ZipEntry γ} {d : Doc} (h : processEntry decode e = some d) :
    e.is_dir = false ∧
    (endsWithStr e.filename ".md" ∨ endsWithStr e.filename ".mdx") ∧
    d.filename = cleanFilename e.filename ∧ d.filename ≠ "" ∧
    decode e.data = some d.content := by
  unfold processEntry at h
  split at h
  · exact absurd h (by simp)
  next hdir =>
    split at h
    · exact absurd h (by simp)
    next hsuf =>
      split at h
      · exact absurd h (by simp)
      next hclean =>
        cases hdec : decode e.data with
        | none => rw [hdec] at h; simp at h
        | some content =>
          rw [hdec] at h
          simp only [Option.some.injEq] at h
          subst h
          refine ⟨by simpa using hdir, by tauto, rfl, hclean, rfl⟩

/-! ## Claim theorems -/

/-- C1, counterexample: an archive entry whose internal path has no `/`
(a single path segment, here `README.md`) is not discarded by
`extract_md_files`; it yields a document whose identifier is the full
path, so extraction of such an entry returns a non-empty document list. -/
theorem extract_single_segment_cex :
    extract_md_files (fun s : String => some s)
        [⟨"README.md", false, "hello"⟩] = [⟨"README.md", "hello"⟩] ∧
    extract_md_files (fun s : String => some s)
        [⟨"README.md", false, "hello"⟩] ≠ [] := by
  constructor
  · decide
  · decide

/-- C1, amended: for every document produced by `extract_md_files`, when
the source entry's path contains a `/` the identifier is the path with
exactly its first segment (the part before the first `/`) removed, and
when the path has no `/` the identifier is the full path; the identifier
is never empty, and an entry whose stripped identifier is empty yields no
document. -/
theorem extract_identifier_derivation {γ : Type} (decode : γ → Option String)
    (entries : List (ZipEntry γ)) :
    (∀ d ∈ extract_md_files decode entries, ∃ e ∈ entries,
       d.filename = cleanFilename e.filename ∧ d.filename ≠ "" ∧
       (∀ a b, splitOnce '/' e.filename.data = some (a, b) →
          e.filename.data = a ++ '/' :: b ∧ '/' ∉ a ∧ d.filename = String.mk b) ∧
       (splitOnce '/' e.filename.data = none → d.filename = e.filename)) ∧
    (∀ e : ZipEntry γ, cleanFilename e.filename = "" →
       processEntry decode e = none) := by
  constructor
  · intro d hd
    rw [extract_md_files, List.mem_filterMap] at hd
    obtain ⟨e, he, hpe⟩ := hd
    have hc := processEntry_eq_some hpe
    refine ⟨e, he, hc.2.2.1, hc.2.2.2.1, ?_, ?_⟩
    · intro a b hsplit
      refine ⟨(splitOnce_eq_some hsplit).1, (splitOnce_eq_some hsplit).2, ?_⟩
      rw [hc.2.2.1, cleanFilename, hsplit]
    · intro hnone
      rw [hc.2.2.1, cleanFilename, hnone]
  · intro e h
    simp [processEntry, h]

/-- C1 witness: the amended statement applied to the concrete entry
`proj-main/docs/a.md`, whose produced identifier is `docs/a.md`. -/
theorem extract_identifier_derivation_witness :
    ∃ e ∈ [ZipEntry.mk "proj-main/docs/a.md" false "x"],
      (Doc.mk "docs/a.md" "x").filename = cleanFilename e.filename ∧
      (Doc.mk "docs/a.md" "x").filename ≠ "" ∧
      (∀ a b, splitOnce '/' e.filename.data = some (a, b) →
         e.filename.data = a ++ '/' :: b ∧ '/' ∉ a ∧
         (Doc.mk "docs/a.md" "x").filename = String.mk b) ∧
      (splitOnce '/' e.filename.data = none →
         (Doc.mk "docs/a.md" "x").filename = e.filename) :=
  (extract_identifier_derivation (fun s : String => some s)
      [ZipEntry.mk "proj-main/docs/a.md" false "x"]).1
    ⟨"docs/a.md", "x"⟩ (by decide)

/-- C10: every document returned by a successful extraction has a
non-empty identifier ending in `.md` or `.mdx`, and its content is the
successful UTF-8 decoding of the bytes of a corresponding file entry of
the archive. -/
theorem extract_output_wellformed {γ : Type} (decode : γ → Option String)
    (entries : List (ZipEntry γ)) :
    ∀ d ∈ extract_md_files decode entries,
      d.filename ≠ "" ∧
      (endsWithStr d.filename ".md" ∨ endsWithStr d.filename ".mdx") ∧
      ∃ e ∈ entries, e.is_dir = false ∧ decode e.data = some d.content ∧
        d.filename = cleanFilename e.filename := by
  intro d hd
  rw [extract_md_files, List.mem_filterMap] at hd
  obtain ⟨e, he, hpe⟩ := hd
  have hc := processEntry_eq_some hpe
  refine ⟨hc.2.2.2.1, ?_, e, he, hc.1, hc.2.2.2.2, hc.2.2.1⟩
  rcases hc.2.1 with hmd | hmdx
  · exact Or.inl (by rw [hc.2.2.1]; exact cleanFilename_endsWith hmd (by decide))
  · exact Or.inr (by rw [hc.2.2.1]; exact cleanFilename_endsWith hmdx (by decide))

/-- C10 witness: the statement applied to a concrete one-entry archive,
whose extraction yields the document `docs/a.md` with content `x`. -/
theorem extract_output_wellformed_witness :
    (Doc.mk "docs/a.md" "x").filename ≠ "" ∧
    (endsWithStr (Doc.mk "docs/a.md" "x").filename ".md" ∨
      endsWithStr (Doc.mk "docs/a.md" "x").filename ".mdx") ∧
    ∃ e ∈ [ZipEntry.mk "repo-main/docs/a.md" false "x"],
      e.is_dir = false ∧
      (fun s : String => some s) e.data = some (Doc.mk "docs/a.md" "x").content ∧
      (Doc.mk "docs/a.md" "x").filename = cleanFilename e.filename :=
  extract_output_wellformed (fun s : String => some s)
    [ZipEntry.mk "repo-main/docs/a.md" false "x"]
    ⟨"docs/a.md", "x"⟩ (by decide)

/-- C8: every entry returned by `search_docs` previews its document's
content: the preview is the content itself when the content has at most
500 characters, and the first 500 characters followed by the ellipsis
marker `...` when the content is longer. -/
theorem search_docs_preview (results : List Doc) :
    ∀ p ∈ search_docs_results results, ∃ doc ∈ results,
      p.filename = doc.filename ∧
      (doc.content.length ≤ 500 → p.content_preview = doc.content) ∧
      (500 < doc.content.length →
        p.content_preview = pyTake doc.content 500 ++ "...") := by
  intro p hp
  rw [search_docs_results, List.mem_map] at hp
  obtain ⟨doc, hdoc, heq⟩ := hp
  subst heq
  refine ⟨doc, hdoc, rfl, ?_, ?_⟩
  · intro hle
    show content_preview doc.content = doc.content
    rw [content_preview, if_neg (by omega)]
  · intro hgt
    show content_preview doc.content = pyTake doc.content 500 ++ "..."
    rw [content_preview, if_pos hgt]

set_option maxRecDepth 20000 in
/-- C8 witness: the statement applied to a single 501-character document,
whose preview is its first 500 characters followed by `...`. -/
theorem search_docs_preview_witness :
    ∃ doc ∈ [Doc.mk "a.md" (String.mk (List.replicate 501 'a'))],
      (PreviewEntry.mk "a.md"
          (String.mk (List.replicate 500 'a') ++ "...")).filename = doc.filename ∧
      (doc.content.length ≤ 500 →
        (PreviewEntry.mk "a.md"
            (String.mk (List.replicate 500 'a') ++ "...")).content_preview =
          doc.content) ∧
      (500 < doc.content.length →
        (PreviewEntry.mk "a.md"
            (String.mk (List.replicate 500 'a') ++ "...")).content_preview =
          pyTake doc.content 500 ++ "...") :=
  search_docs_preview [Doc.mk "a.md" (String.mk (List.replicate 501 'a'))]
    ⟨"a.md", String.mk (List.replicate 500 'a') ++ "..."⟩ (by decide)

/-- C6: `build_index` fails with a `ValueError` on the `None` sentinel and
on non-list input, fails with an `IndexingError` on the empty list, and in
particular `build(None)` and `build([])` fail with different errors. -/
theorem build_index_error_kinds {Ix : Type} (fit : List Doc → Except String Ix) :
    build_index fit .pyNone = .error (.valueError "Documents cannot be None") ∧
    build_index fit .nonList = .error (.valueError "Documents must be a list") ∧
    build_index fit (.pyList []) =
      .error (.indexingError "Cannot build index from empty document list") ∧
    build_index fit .pyNone ≠ build_index fit (.pyList []) := by
  refine ⟨rfl, rfl, rfl, ?_⟩
  simp [build_index]

/-- C6 witness: the inequality of the two failure results at a concrete
indexing capability. -/
theorem build_index_error_kinds_witness :
    build_index (fun ds => Except.ok ds) DocsArg.pyNone ≠
      build_index (fun ds => Except.ok ds) (DocsArg.pyList []) :=
  (build_index_error_kinds (fun ds => Except.ok ds)).2.2.2

/-- C7: with a non-null index, `search` fails with a `ValueError` exactly
when the query is not a string, or is empty after stripping surrounding
whitespace, or the limit is not an integer or is non-positive; in every
such case the result does not depend on the delegated query capability
(the error is raised before delegation), and a whitespace-only query is
rejected with exactly the result of an empty query. -/
theorem search_validation {Ix : Type}
    (runQuery : Ix → String → Int → Except String (List Doc)) (ix : Ix)
    (query : QueryArg) (num_results : LimitArg) :
    ((∃ msg, search runQuery (some ix) query num_results =
        .error (.valueError msg)) ↔
      (query = .nonStr ∨ (∃ q, query = .str q ∧ pyStrip q = "") ∨
        num_results = .nonInt ∨ (∃ n, num_results = .int n ∧ n ≤ 0))) ∧
    ((query = .nonStr ∨ (∃ q, query = .str q ∧ pyStrip q = "") ∨
        num_results = .nonInt ∨ (∃ n, num_results = .int n ∧ n ≤ 0)) →
      ∀ rq2 : Ix → String → Int → Except String (List Doc),
        search runQuery (some ix) query num_results =
          search rq2 (some ix) query num_results) ∧
    (∀ q, pyStrip q = "" →
      search runQuery (some ix) (.str q) num_results =
        search runQuery (some ix) (.str "") num_results) := by
  have hstrip : pyStrip "" = "" := rfl
  refine ⟨⟨?_, ?_⟩, ?_, ?_⟩
  · rintro ⟨msg, hmsg⟩
    cases query with
    | nonStr => exact Or.inl rfl
    | str q =>
      by_cases hq : pyStrip q = ""
      · exact Or.inr (Or.inl ⟨q, rfl, hq⟩)
      · cases num_results with
        | nonInt => exact Or.inr (Or.inr (Or.inl rfl))
        | int n =>
          by_cases hn : n ≤ 0
          · exact Or.inr (Or.inr (Or.inr ⟨n, rfl, hn⟩))
          · exfalso
            cases hrq : runQuery ix q n with
            | ok r => simp [search, hq, hn, hrq] at hmsg
            | error e => simp [search, hq, hn, hrq] at hmsg
  · intro hcond
    cases query with
    | nonStr => exact ⟨"Query must be a string", rfl⟩
    | str q =>
      by_cases hq : pyStrip q = ""
      · exact ⟨"Query cannot be empty or whitespace only", by simp [search, hq]⟩
      · cases num_results with
        | nonInt => exact ⟨"num_results must be a positive integer", by simp [search, hq]⟩
        | int n =>
          by_cases hn : n ≤ 0
          · exact ⟨"num_results must be a positive integer", by simp [search, hq, hn]⟩
          · exfalso
            rcases hcond with h | ⟨q2, hq2, hq20⟩ | h | ⟨n2, hn2, hn20⟩
            · simp at h
            · rw [QueryArg.str.injEq] at hq2
              exact hq (hq2 ▸ hq20)
            · simp at h
            · rw [LimitArg.int.injEq] at hn2
              exact hn (hn2 ▸ hn20)
  · intro hcond rq2
    cases query with
    | nonStr => rfl
    | str q =>
      by_cases hq : pyStrip q = ""
      · simp [search, hq]
      · cases num_results with
        | nonInt => simp [search, hq]
        | int n =>
          by_cases hn : n ≤ 0
          · simp [search, hq, hn]
          · exfalso
            rcases hcond with h | ⟨q2, hq2, hq20⟩ | h | ⟨n2, hn2, hn20⟩
            · simp at h
            · rw [QueryArg.str.injEq] at hq2
              exact hq (hq2 ▸ hq20)
            · simp at h
            · rw [LimitArg.int.injEq] at hn2
              exact hn (hn2 ▸ hn20)
  · intro q hq
    simp [search, hq, hstrip]

/-- C7 witness: with a concrete index and query capability, a
whitespace-only query together with a valid limit yields a `ValueError`;
the application instantiates the characterization at that input. -/
theorem search_validation_witness :
    ∃ msg, search (fun (_ : Nat) (_ : String) (_ : Int) => Except.ok []) (some 0)
        (.str "   ") (.int 5) = .error (.valueError msg) :=
  (search_validation (fun (_ : Nat) (_ : String) (_ : Int) => Except.ok []) 0
      (.str "   ") (.int 5)).1.mpr
    (Or.inr (Or.inl ⟨"   ", rfl, by decide⟩))

/-- C5: when the derived local path is already occupied on disk,
`download_zip` returns that path at once, with the state — filesystem,
cache, and the network-call counter — completely unchanged, whatever the
network (`net`) would currently deliver for the URL. -/
theorem download_zip_skip_existing {γ Ix : Type} (net : String → NetResponse γ)
    (url dest_dir : String) (st : St γ Ix) (b : Blob γ)
    (hvalid : validUrl url)
    (hexists : alookup st.files (derived_local_path url dest_dir) = some b) :
    download_zip net url dest_dir st =
      (.ok (derived_local_path url dest_dir), st) := by
  simp only [download_zip, if_neg hvalid.1, if_neg (not_not_intro hvalid), hexists]

/-- C5 witness: with `./docs.zip` already on disk, the fetch of
`https://example.com/docs.zip` into `.` succeeds immediately even though
every network request would fail. -/
theorem download_zip_skip_existing_witness :
    download_zip (fun _ => NetResponse.failEarly "network down")
        "https://example.com/docs.zip" "."
        (St.mk [("./docs.zip", Blob.corrupt)] [] 0 0 0 0 : St Unit Unit) =
      (.ok (derived_local_path "https://example.com/docs.zip" "."),
       St.mk [("./docs.zip", Blob.corrupt)] [] 0 0 0 0) :=
  download_zip_skip_existing _ _ _ _ Blob.corrupt (by decide) (by decide)

/-- C4, counterexample: a network failure that interrupts the streamed
body transfer makes `download_zip` raise a `DownloadError`, yet the bytes
already written remain on disk at the derived path, where a later
existence check finds them as if they were a complete cached archive. -/
theorem download_zip_partial_write_cex :
    (download_zip (fun _ => NetResponse.failDuring Blob.corrupt "stream interrupted")
        "https://example.com/docs.zip" "."
        (St.mk [] [] 0 0 0 0 : St Unit Unit)).1 =
      .error (.downloadError "stream interrupted") ∧
    alookup (download_zip (fun _ => NetResponse.failDuring Blob.corrupt "stream interrupted")
        "https://example.com/docs.zip" "."
        (St.mk [] [] 0 0 0 0 : St Unit Unit)).2.files
      "./docs.zip" = some Blob.corrupt := by
  constructor
  · decide
  · decide

/-- C4, amended: on an invocation whose derived path is not yet on disk,
`download_zip` on success writes exactly one file; on a failure occurring
before the body transfer begins it writes nothing; but on a failure during
the streamed body transfer it leaves the partially written file at the
destination path. -/
theorem download_zip_write_behavior {γ Ix : Type} (net : String → NetResponse γ)
    (url dest_dir : String) (st : St γ Ix)
    (hvalid : validUrl url)
    (hmiss : alookup st.files (derived_local_path url dest_dir) = none) :
    (∀ body, net url = .success body →
      download_zip net url dest_dir st =
        (.ok (derived_local_path url dest_dir),
         { st with files := (derived_local_path url dest_dir, body) :: st.files,
                   netCalls := st.netCalls + 1 })) ∧
    (∀ msg, net url = .failEarly msg →
      download_zip net url dest_dir st =
        (.error (.downloadError msg), { st with netCalls := st.netCalls + 1 })) ∧
    (∀ w msg, net url = .failDuring w msg →
      download_zip net url dest_dir st =
        (.error (.downloadError msg),
         { st with files := (derived_local_path url dest_dir, w) :: st.files,
                   netCalls := st.netCalls + 1 })) := by
  refine ⟨?_, ?_, ?_⟩
  · intro body hnet
    simp only [download_zip, if_neg hvalid.1, if_neg (not_not_intro hvalid), hmiss, hnet]
  · intro msg hnet
    simp only [download_zip, if_neg hvalid.1, if_neg (not_not_intro hvalid), hmiss, hnet]
  · intro w msg hnet
    simp only [download_zip, if_neg hvalid.1, if_neg (not_not_intro hvalid), hmiss, hnet]

/-- C4 witness: the amended statement applied to a fresh state and a
network that delivers the whole body, establishing the single written
file. -/
theorem download_zip_write_behavior_witness :
    download_zip (fun _ => NetResponse.success (Blob.zip ([] : List (ZipEntry Unit))))
        "https://example.com/docs.zip" "."
        (St.mk [] [] 0 0 0 0 : St Unit Unit) =
      (.ok (derived_local_path "https://example.com/docs.zip" "."),
       { (St.mk [] [] 0 0 0 0 : St Unit Unit) with
           files := [(derived_local_path "https://example.com/docs.zip" ".",
                      Blob.zip [])],
           netCalls := 1 }) :=
  (download_zip_write_behavior _ _ _ _ (by decide) (by decide)).1 _ rfl

theorem download_zip_preserves {γ Ix : Type} (net : String → NetResponse γ)
    (url dest_dir : String) (st : St γ Ix) :
    (download_zip net url dest_dir st).2.cache = st.cache ∧
    (download_zip net url dest_dir st).2.fetchCalls = st.fetchCalls ∧
    (download_zip net url dest_dir st).2.extractCalls = st.extractCalls ∧
    (download_zip net url dest_dir st).2.buildCalls = st.buildCalls := by
  refine ⟨?_, ?_, ?_, ?_⟩ <;>
    (simp only [download_zip]
     repeat' split
     all_goals rfl)

theorem get_cached_index_miss_fetch {γ Ix : Type} (net : String → NetResponse γ)
    (decode : γ → Option String) (fit : List Doc → Except String Ix)
    (zip_url dest_dir : String) (st : St γ Ix)
    (hmiss : alookup st.cache zip_url = none) :
    (get_cached_index net decode fit zip_url dest_dir st).2.fetchCalls =
      st.fetchCalls + 1 := by
  simp only [get_cached_index, hmiss]
  rcases hdl : download_zip net zip_url dest_dir
      { st with fetchCalls := st.fetchCalls + 1 } with ⟨r, st2⟩
  have h2 : st2.fetchCalls = st.fetchCalls + 1 := by
    have := (download_zip_preserves net zip_url dest_dir
      { st with fetchCalls := st.fetchCalls + 1 }).2.1
    rw [hdl] at this
    exact this
  cases r with
  | error e => simp [hdl, h2]
  | ok zp =>
    simp only [hdl]
    cases hex : extract_md_files_at decode
        ({ st2 with extractCalls := st2.extractCalls + 1 }).files zp with
    | error e => simp [hex, h2]
    | ok docs =>
      simp only [hex]
      cases hb : build_index fit (.pyList docs) with
      | error e => simp [hb, h2]
      | ok ix => simp [hb, h2]

theorem get_cached_index_ok_cached {γ Ix : Type} {net : String → NetResponse γ}
    {decode : γ → Option String} {fit : List Doc → Except String Ix}
    {zip_url dest_dir : String} {st st' : St γ Ix} {ix : Ix}
    (h : get_cached_index net decode fit zip_url dest_dir st = (.ok ix, st')) :
    alookup st'.cache zip_url = some ix := by
  simp only [get_cached_index] at h
  split at h
  · rename_i ix0 hl
    simp only [Prod.mk.injEq, Except.ok.injEq] at h
    rw [← h.2, hl, h.1]
  · split at h
    · simp at h
    · split at h
      · simp at h
      · split at h
        · simp at h
        · simp only [Prod.mk.injEq, Except.ok.injEq] at h
          rw [← h.2, ← h.1]
          simp [alookup]

/-- C2: when `get_cached_index` fails, the returned error is exactly the
error of the first failing stage (fetch, extract, or build), the cache is
left exactly as it was — in particular with no entry for the URL — and a
next call for the same URL enters the pipeline again (its fetch stage
runs once more). -/
theorem get_cached_index_failure {γ Ix : Type} (net : String → NetResponse γ)
    (decode : γ → Option String) (fit : List Doc → Except String Ix)
    (zip_url dest_dir : String) (st st' : St γ Ix) (e : Err)
    (h : get_cached_index net decode fit zip_url dest_dir st = (.error e, st')) :
    st'.cache = st.cache ∧
    alookup st'.cache zip_url = none ∧
    (get_cached_index net decode fit zip_url dest_dir st').2.fetchCalls =
      st'.fetchCalls + 1 ∧
    ((download_zip net zip_url dest_dir
        { st with fetchCalls := st.fetchCalls + 1 }).1 = .error e ∨
     (∃ zp, (download_zip net zip_url dest_dir
          { st with fetchCalls := st.fetchCalls + 1 }).1 = .ok zp ∧
        extract_md_files_at decode
          (download_zip net zip_url dest_dir
            { st with fetchCalls := st.fetchCalls + 1 }).2.files zp = .error e) ∨
     (∃ zp docs, (download_zip net zip_url dest_dir
          { st with fetchCalls := st.fetchCalls + 1 }).1 = .ok zp ∧
        extract_md_files_at decode
          (download_zip net zip_url dest_dir
            { st with fetchCalls := st.fetchCalls + 1 }).2.files zp = .ok docs ∧
        build_index fit (.pyList docs) = .error e)) := by
  have hmiss : alookup st.cache zip_url = none := by
    cases hl : alookup st.cache zip_url with
    | some ix0 => simp only [get_cached_index, hl] at h; simp at h
    | none => rfl
  simp only [get_cached_index, hmiss] at h
  rcases hdl : download_zip net zip_url dest_dir
      { st with fetchCalls := st.fetchCalls + 1 } with ⟨r, st2⟩
  rw [hdl] at h
  have hpres := download_zip_preserves net zip_url dest_dir
    { st with fetchCalls := st.fetchCalls + 1 }
  rw [hdl] at hpres
  cases r with
  | error e2 =>
    simp only at h
    simp only [Prod.mk.injEq, Except.error.injEq] at h
    obtain ⟨rfl, rfl⟩ := h
    have hc : st2.cache = st.cache := hpres.1
    have hm2 : alookup st2.cache zip_url = none := by rw [hc]; exact hmiss
    exact ⟨hc, hm2,
      get_cached_index_miss_fetch net decode fit zip_url dest_dir st2 hm2,
      Or.inl rfl⟩
  | ok zp =>
    simp only at h
    cases hex : extract_md_files_at decode st2.files zp with
    | error e2 =>
      rw [hex] at h
      simp only [Prod.mk.injEq, Except.error.injEq] at h
      obtain ⟨rfl, hst⟩ := h
      have hc : st'.cache = st.cache := by rw [← hst]; exact hpres.1
      have hm2 : alookup st'.cache zip_url = none := by rw [hc]; exact hmiss
      exact ⟨hc, hm2,
        get_cached_index_miss_fetch net decode fit zip_url dest_dir st' hm2,
        Or.inr (Or.inl ⟨zp, rfl, hex⟩)⟩
    | ok docs =>
      rw [hex] at h
      simp only at h
      cases hb : build_index fit (.pyList docs) with
      | error e2 =>
        rw [hb] at h
        simp only [Prod.mk.injEq, Except.error.injEq] at h
        obtain ⟨rfl, hst⟩ := h
        have hc : st'.cache = st.cache := by rw [← hst]; exact hpres.1
        have hm2 : alookup st'.cache zip_url = none := by rw [hc]; exact hmiss
        exact ⟨hc, hm2,
          get_cached_index_miss_fetch net decode fit zip_url dest_dir st' hm2,
          Or.inr (Or.inr ⟨zp, docs, rfl, hex, hb⟩)⟩
      | ok ix =>
        rw [hb] at h
        simp at h

/-- C2 witness: with a network that refuses every request, the first call
fails with the fetch stage's `DownloadError` and stores nothing, so a
second call for the same URL invokes the fetch stage again. -/
theorem get_cached_index_failure_witness :
    (get_cached_index (fun _ => NetResponse.failEarly "boom") (fun _ : Unit => none)
        (fun ds => Except.ok ds) "http://h/d.zip" "."
        (St.mk [] [] 1 1 0 0)).2.fetchCalls =
      (St.mk [] [] 1 1 0 0 : St Unit (List Doc)).fetchCalls + 1 :=
  (get_cached_index_failure (fun _ => NetResponse.failEarly "boom") (fun _ : Unit => none)
    (fun ds => Except.ok ds) "http://h/d.zip" "." (St.mk [] [] 0 0 0 0)
    (St.mk [] [] 1 1 0 0) (.downloadError "boom") (by decide)).2.2.1

/-- C3: after a successful `get_cached_index` call, any further call with
the same URL string returns the stored index with the state unchanged — in
particular the network, fetch, extract and build counters do not move. -/
theorem get_cached_index_idempotent {γ Ix : Type} (net : String → NetResponse γ)
    (decode : γ → Option String) (fit : List Doc → Except String Ix)
    (zip_url dest_dir : String) (st st' : St γ Ix) (ix : Ix)
    (h : get_cached_index net decode fit zip_url dest_dir st = (.ok ix, st')) :
    get_cached_index net decode fit zip_url dest_dir st' = (.ok ix, st') ∧
    (get_cached_index net decode fit zip_url dest_dir st').2.netCalls = st'.netCalls ∧
    (get_cached_index net decode fit zip_url dest_dir st').2.fetchCalls = st'.fetchCalls ∧
    (get_cached_index net decode fit zip_url dest_dir st').2.extractCalls = st'.extractCalls ∧
    (get_cached_index net decode fit zip_url dest_dir st').2.buildCalls = st'.buildCalls := by
  have hc := get_cached_index_ok_cached h
  have heq : get_cached_index net decode fit zip_url dest_dir st' = (.ok ix, st') := by
    simp only [get_cached_index, hc]
  exact ⟨heq, by rw [heq], by rw [heq], by rw [heq], by rw [heq]⟩

/-- C3 witness: the concrete pipeline run for `http://h/d.zip` succeeds
and populates the cache, and the second call from the resulting state
returns the stored index with that state unchanged. -/
theorem get_cached_index_idempotent_witness :
    get_cached_index
        (fun _ => NetResponse.success (Blob.zip [ZipEntry.mk "r/a.md" false "x"]))
        (fun s : String => some s) (fun ds => Except.ok ds) "http://h/d.zip" "."
        (St.mk [("./d.zip", Blob.zip [ZipEntry.mk "r/a.md" false "x"])]
          [("http://h/d.zip", [Doc.mk "a.md" "x"])] 1 1 1 1) =
      (.ok [Doc.mk "a.md" "x"],
       St.mk [("./d.zip", Blob.zip [ZipEntry.mk "r/a.md" false "x"])]
         [("http://h/d.zip", [Doc.mk "a.md" "x"])] 1 1 1 1) :=
  (get_cached_index_idempotent
    (fun _ => NetResponse.success (Blob.zip [ZipEntry.mk "r/a.md" false "x"]))
    (fun s : String => some s) (fun ds => Except.ok ds) "http://h/d.zip" "."
    (St.mk [] [] 0 0 0 0)
    (St.mk [("./d.zip", Blob.zip [ZipEntry.mk "r/a.md" false "x"])]
      [("http://h/d.zip", [Doc.mk "a.md" "x"])] 1 1 1 1)
    [Doc.mk "a.md" "x"] (by decide)).1

/-- A network serving two GitHub branch archives whose URLs both end in
`main.zip` but whose contents differ. -/
def demoNet : String → NetResponse String := fun u =>
  if u = "https://github.com/jlowin/fastmcp/archive/refs/heads/main.zip" then
    .success (.zip [ZipEntry.mk "fastmcp-main/docs/a.md" false "fastmcp content"])
  else
    .success (.zip [ZipEntry.mk "minsearch-main/docs/b.md" false "minsearch content"])

/-- C9: two distinct source URLs with the same final path segment
(`main.zip`) collide on the derived local path: after a successful
`get_cached_index` for the first URL, the call for the second URL issues
no network request (the network counter does not move), yet runs a build
and stores under the second URL an index made from the archive bytes that
were fetched for the first URL — even though the network would deliver
different content for the second URL. -/
theorem cross_url_archive_reuse :
    ∃ u1 u2 : String, u1 ≠ u2 ∧
      derived_local_path u1 "." = derived_local_path u2 "." ∧
      ∃ st1 st2 : St String (List Doc), ∃ ix1 ix2 : List Doc,
        get_cached_index demoNet (fun s => some s) (fun ds => Except.ok ds)
          u1 "." (St.mk [] [] 0 0 0 0) = (.ok ix1, st1) ∧
        get_cached_index demoNet (fun s => some s) (fun ds => Except.ok ds)
          u2 "." st1 = (.ok ix2, st2) ∧
        st2.netCalls = st1.netCalls ∧
        st2.buildCalls = st1.buildCalls + 1 ∧
        alookup st2.cache u2 = some ix2 ∧
        ix2 = extract_md_files (fun s => some s)
          [ZipEntry.mk "fastmcp-main/docs/a.md" false "fastmcp content"] ∧
        demoNet u2 = NetResponse.success (Blob.zip
          [ZipEntry.mk "minsearch-main/docs/b.md" false "minsearch content"]) := by
  refine ⟨"https://github.com/jlowin/fastmcp/archive/refs/heads/main.zip",
    "https://github.com/alexeygrigorev/minsearch/archive/refs/heads/main.zip",
    by decide, by decide,
    St.mk [("./main.zip", Blob.zip [ZipEntry.mk "fastmcp-main/docs/a.md" false "fastmcp content"])]
      [("https://github.com/jlowin/fastmcp/archive/refs/heads/main.zip",
        [Doc.mk "docs/a.md" "fastmcp content"])] 1 1 1 1,
    St.mk [("./main.zip", Blob.zip [ZipEntry.mk "fastmcp-main/docs/a.md" false "fastmcp content"])]
      [("https://github.com/alexeygrigorev/minsearch/archive/refs/heads/main.zip",
        [Doc.mk "docs/a.md" "fastmcp content"]),
       ("https://github.com/jlowin/fastmcp/archive/refs/heads/main.zip",
        [Doc.mk "docs/a.md" "fastmcp content"])] 1 2 2 2,
    [Doc.mk "docs/a.md" "fastmcp content"], [Doc.mk "docs/a.md" "fastmcp content"],
    by decide, by decide, rfl, rfl, by decide, by decide, by decide⟩

end DocsSearch
